import Mathlib

/-!
Shallow embedding of the discovery engine of the whos-home repository
(`src/discovery.py`, class `DeviceDiscovery`).

External-tool behaviour (subprocess invocations, their exit statuses and
captured stdout) is modelled by an environment `Env`: every command the
engine can spawn is a field holding its outcome.  A `subprocess.run` call
either yields a `CmdResult` (exit code and stdout), raises
`TimeoutExpired`, raises `FileNotFoundError` (tool missing), or raises
some other exception; these are the four `RunOutcome` constructors.
Python's `try`/`except` structure is embedded with `Except`:
a function body that can raise is an `Except`-valued definition and the
corresponding handler is an explicit `match` on it.

Python string scanning (`re.search` of the fixed-length MAC patterns,
`str.lower`, `str.upper`, `str.replace('-',':')`, `str.split`,
`'needle' in line`) is embedded over `List Char`.  The embedded
`.upper()`/`.lower()` cover the ASCII letters, which is exact for the
tool output alphabets involved.  Repeated invocations of the same
command are modelled as returning the same outcome (the environment is a
snapshot); thread-completion order of the sweep is abstracted as the
iteration order of the address range, which is faithful for the
set-of-results properties stated below.
-/

/-- Result of a completed subprocess invocation: exit status and captured
stdout (`subprocess.run(..., capture_output=True, text=True)`). -/
structure CmdResult where
  exitCode : Int
  stdout : String
  deriving DecidableEq, Repr

/-- Outcome of attempting to spawn an external command: normal
completion, `subprocess.TimeoutExpired`, `FileNotFoundError`
(tool missing), or any other exception. -/
inductive RunOutcome where
  | ok (r : CmdResult)
  | timeout
  | notFound
  | exn
  deriving DecidableEq, Repr

/-- The discovery settings snapshot, with the `.get(key, default)`
defaults of the source already applied (`network_range` defaults to
"auto", `discovery_methods` to `["ping","arping"]`, timeouts to 1 and 2). -/
structure Settings where
  networkRange : String
  discoveryMethods : List String
  pingTimeout : Nat
  arpingTimeout : Nat

/-- The external world as seen by `DeviceDiscovery`: the outcome of every
command it can spawn, reverse-DNS resolution, and the platform flag. -/
structure Env where
  settings : Settings
  /-- Outcomes of the three route-table commands of `get_network_range`,
  in order: `ip route show default`, `route print`, `netstat -rn`. -/
  routeOut : List RunOutcome
  /-- Models `ping -c 1 -W <t> ip` (Unix-style form). -/
  pingUnix : String → RunOutcome
  /-- Models `ping -n 1 -w <t*1000> ip` (Windows-style fallback form). -/
  pingWin : String → RunOutcome
  /-- Models `arping -c 1 -w <t> ip`. -/
  arpingCmd : String → RunOutcome
  /-- Models `arp -a ip` (first fallback of `arping_device`). -/
  arpACmd : String → RunOutcome
  /-- Models `arp -n ip` (second fallback of `arping_device`). -/
  arpNCmd : String → RunOutcome
  /-- Models `arp -n` (whole ARP table, Linux form). -/
  arpTableN : RunOutcome
  /-- Models `arp -a` (whole ARP table, Windows form). -/
  arpTableA : RunOutcome
  /-- Models `ip neighbor`. -/
  ipNeighborCmd : RunOutcome
  /-- Models `socket.gethostbyaddr(ip)[0]`, `none` when it raises. -/
  hostnameOf : String → Option String
  /-- Models `platform.system() == "Windows"`. -/
  isWindows : Bool

/-- A scan-report entry (the `device_info` dict built by `scan_ip`). -/
structure Device where
  ip_address : String
  mac_address : Option String
  hostname : Option String
  is_online : Bool
  discovery_method : Option String
  deriving DecidableEq, Repr

/-- Python `str.split(sep)` for a one-character separator, keeping empty
fields. -/
def splitOnCharAux (sep : Char) (acc : List Char) : List Char → List (List Char)
  | [] => [acc.reverse]
  | c :: rest =>
    if c = sep then acc.reverse :: splitOnCharAux sep [] rest
    else splitOnCharAux sep (c :: acc) rest

def splitOnChar (sep : Char) (cs : List Char) : List (List Char) :=
  splitOnCharAux sep [] cs

/-- Models `sep.join(parts)` for a one-character separator. -/
def joinChar (sep : Char) : List (List Char) → List Char
  | [] => []
  | [x] => x
  | x :: y :: rest => x ++ sep :: joinChar sep (y :: rest)

/-- Models `stdout.split('\n')`. -/
def pyLines (s : String) : List String := (splitOnChar '\n' s.toList).map String.mk

/-- Python's `needle in hay` on strings (contiguous-substring test). -/
def containsSub (needle : List Char) : List Char → Bool
  | [] => needle.isEmpty
  | c :: rest => needle.isPrefixOf (c :: rest) || containsSub needle rest

/-- Models `needle in line` for `String`s. -/
def containsStr (needle hay : String) : Bool := containsSub needle.toList hay.toList

/-- The ASCII case pairs (upper, lower). -/
def azTable : List (Char × Char) :=
  [('A','a'), ('B','b'), ('C','c'), ('D','d'), ('E','e'), ('F','f'), ('G','g'),
   ('H','h'), ('I','i'), ('J','j'), ('K','k'), ('L','l'), ('M','m'), ('N','n'),
   ('O','o'), ('P','p'), ('Q','q'), ('R','r'), ('S','s'), ('T','t'), ('U','u'),
   ('V','v'), ('W','w'), ('X','x'), ('Y','y'), ('Z','z')]

/-- ASCII `str.upper()` on one character. -/
def pyUpperChar (c : Char) : Char :=
  ((azTable.find? (fun p => p.2 == c)).map Prod.fst).getD c

/-- ASCII `str.lower()` on one character. -/
def pyLowerChar (c : Char) : Char :=
  ((azTable.find? (fun p => p.1 == c)).map Prod.snd).getD c

/-- Models `str.replace('-', ':')` on one character. -/
def dashToColon (c : Char) : Char := if c = '-' then ':' else c

/-- Models `str.upper()` on a `String`. -/
def pyUpperStr (s : String) : String := String.mk (s.toList.map pyUpperChar)

def decimalDigits : List Char := (List.range 10).map (fun i => Char.ofNat (48 + i))

def lowerHexChars : List Char := decimalDigits ++ ['a', 'b', 'c', 'd', 'e', 'f']

def upperHexChars : List Char := decimalDigits ++ ['A', 'B', 'C', 'D', 'E', 'F']

/-- Character classes of the fixed-length MAC regular expressions in the
source: `[0-9a-f]` (lower hex), its upper-cased image, `:` and `-`. -/
inductive MacCC where
  | lhex | uhex | col | dash
  deriving DecidableEq, Repr

def cmatch : MacCC → Char → Bool
  | .lhex, c => lowerHexChars.any (fun d => d == c)
  | .uhex, c => upperHexChars.any (fun d => d == c)
  | .col, c => c == ':'
  | .dash, c => c == '-'

/-- The 17-class shape `hh s hh s hh s hh s hh s hh` of a MAC pattern with
hex class `h` and separator class `s`. -/
def shapeWith (h sep : MacCC) : List MacCC :=
  [h, h, sep, h, h, sep, h, h, sep, h, h, sep, h, h, sep, h, h]

def lowColonShape : List MacCC := shapeWith .lhex .col
def lowDashShape : List MacCC := shapeWith .lhex .dash
def upColonShape : List MacCC := shapeWith .uhex .col

/-- Match a fixed shape against the start of `cs`, returning the consumed
characters (the regex group). -/
def matchShape : List MacCC → List Char → Option (List Char)
  | [], _ => some []
  | _ :: _, [] => none
  | k :: ks, c :: cs =>
    if cmatch k c then (matchShape ks cs).map (fun m => c :: m) else none

/-- Models `re.search` of a fixed-length character-class pattern: leftmost match. -/
def searchShape (s : List MacCC) : List Char → Option (List Char)
  | [] => matchShape s []
  | c :: cs =>
    match matchShape s (c :: cs) with
    | some m => some m
    | none => searchShape s cs

/-- Models `re.match(r'^(hh:){5}hh$', cand.lower())`: the whole token, lowered,
is a colon-form MAC. -/
def exactLowColon (cand : List Char) : Bool :=
  matchShape lowColonShape (cand.map pyLowerChar) == some (cand.map pyLowerChar)

/-- A canonical hardware address: six two-digit upper-case-hex octets
separated by colons. -/
def isUpperMac (cs : List Char) : Bool := matchShape upColonShape cs == some cs

def isUpperMacS (s : String) : Bool := isUpperMac s.toList

def isWsChar (c : Char) : Bool := c = ' ' || c = '\t' || c = '\n' || c = '\r'

/-- Python `str.split()` (no argument): split on whitespace runs,
discarding empty fields. -/
def pySplitWsAux (acc : List Char) : List Char → List (List Char)
  | [] => if acc.isEmpty then [] else [acc.reverse]
  | c :: rest =>
    if isWsChar c then
      if acc.isEmpty then pySplitWsAux [] rest
      else acc.reverse :: pySplitWsAux [] rest
    else pySplitWsAux (c :: acc) rest

def pySplitWs (cs : List Char) : List (List Char) := pySplitWsAux [] cs

/-- Greedy match of `\d+\.\d+\.\d+\.\d+` anchored at the start of `cs`,
returning the matched characters. -/
def matchIpv4At (cs : List Char) : Option (List Char) :=
  let p1 := cs.span Char.isDigit
  if p1.1.isEmpty then none else
    match p1.2 with
    | '.' :: r1 =>
      let p2 := r1.span Char.isDigit
      if p2.1.isEmpty then none else
        match p2.2 with
        | '.' :: r2 =>
          let p3 := r2.span Char.isDigit
          if p3.1.isEmpty then none else
            match p3.2 with
            | '.' :: r3 =>
              let p4 := r3.span Char.isDigit
              if p4.1.isEmpty then none
              else some (p1.1 ++ '.' :: p2.1 ++ '.' :: p3.1 ++ '.' :: p4.1)
            | _ => none
        | _ => none
    | _ => none

/-- Models `re.search(r'(\d+\.\d+\.\d+\.\d+)', line)`: leftmost match. -/
def searchIpv4 : List Char → Option (List Char)
  | [] => none
  | c :: cs =>
    match matchIpv4At (c :: cs) with
    | some m => some m
    | none => searchIpv4 cs

/-- Models `re.match(r'^\d+\.\d+\.\d+\.\d+$', part)`: the whole token is four
dot-separated digit runs. -/
def isIpv4Word (cs : List Char) : Bool := matchIpv4At cs == some cs

/-- One octet of `ipaddress`'s dotted-quad parser: decimal digits only,
at most three of them, no leading zero, value at most 255. -/
def parseOctet (cs : List Char) : Option Nat :=
  if cs ≠ [] ∧ cs.length ≤ 3 ∧ cs.all Char.isDigit ∧ (cs.length = 1 ∨ cs.headD ' ' ≠ '0') then
    if cs.foldl (fun a c => a * 10 + (c.toNat - 48)) 0 ≤ 255 then
      some (cs.foldl (fun a c => a * 10 + (c.toNat - 48)) 0)
    else none
  else none

def parseAddr (cs : List Char) : Option Nat :=
  match splitOnChar '.' cs with
  | [a, b, c, d] => do
    let x ← parseOctet a
    let y ← parseOctet b
    let z ← parseOctet c
    let w ← parseOctet d
    pure (((x * 256 + y) * 256 + z) * 256 + w)
  | _ => none

/-- A slash-suffix prefix length: a run of decimal digits valued at
most 32. -/
def parsePfx (cs : List Char) : Option Nat :=
  if cs ≠ [] ∧ cs.all Char.isDigit then
    if cs.foldl (fun a c => a * 10 + (c.toNat - 48)) 0 ≤ 32 then
      some (cs.foldl (fun a c => a * 10 + (c.toNat - 48)) 0)
    else none
  else none

/-- Models `ipaddress.ip_network(s, strict=False)` on the IPv4 CIDR forms the
engine feeds it: `a.b.c.d` or `a.b.c.d/p`.  `strict=False` masks the host
bits off.  Returns the network base address and prefix length; `none`
models `ValueError`.  (The dotted-netmask suffix form of the Python
library is not exercised by the engine and is not modelled.) -/
def parseNet (s : String) : Option (Nat × Nat) :=
  match splitOnChar '/' s.toList with
  | [addr] => (parseAddr addr).map (fun a => (a, 32))
  | [addr, pfx] =>
    match parseAddr addr, parsePfx pfx with
    | some a, some p => some (a - a % 2 ^ (32 - p), p)
    | _, _ => none
  | _ => none

/-- Models `network.hosts()`: every address of the block except the network and
broadcast addresses; for /31 and /32 every address of the block. -/
def hostsOf (base p : Nat) : List Nat :=
  if 31 ≤ p then (List.range (2 ^ (32 - p))).map (fun i => base + i)
  else (List.range (2 ^ (32 - p) - 2)).map (fun i => base + 1 + i)

/-- Models `str(ip)` for an IPv4 address held as a `Nat`. -/
def ipToStr (n : Nat) : String :=
  toString (n / 16777216 % 256) ++ "." ++ toString (n / 65536 % 256) ++ "."
    ++ toString (n / 256 % 256) ++ "." ++ toString (n % 256)

/-! ## Range Resolver (`get_network_range`) -/

/-- The per-line gateway extraction loop of `get_network_range`, with the
running `gateway` value threaded through.  The first two branches
(`'default via' in line`; `'0.0.0.0' in line and 'Gateway' not in line`)
set the gateway and break out of the line loop when the line has at
least three whitespace-separated fields; the third branch
(`'0.0.0.0' in line`) records the first IPv4-shaped field other than
`0.0.0.0` and keeps scanning further lines. -/
def gwLoop : Option String → List String → Option String
  | gw, [] => gw
  | gw, line :: rest =>
    if containsStr "default via" line then
      if 3 ≤ (pySplitWs line.toList).length then
        some (String.mk ((pySplitWs line.toList).getD 2 []))
      else gwLoop gw rest
    else if containsStr "0.0.0.0" line && ! containsStr "Gateway" line then
      if 3 ≤ (pySplitWs line.toList).length then
        some (String.mk ((pySplitWs line.toList).getD 2 []))
      else gwLoop gw rest
    else if containsStr "0.0.0.0" line then
      match (pySplitWs line.toList).find? (fun p => isIpv4Word p && p ≠ ("0.0.0.0").toList) with
      | some p => gwLoop (some (String.mk p)) rest
      | none => gwLoop gw rest
    else gwLoop gw rest

/-- The route-command loop of `get_network_range`: try each route command
in order; `FileNotFoundError` and `TimeoutExpired` are caught and mean
"try the next alternative"; any other exception escapes to the outer
handler (`Except.error`); a command that exits 0 and yields a gateway
stops the loop. -/
def routeLoop : List RunOutcome → Except Unit (Option String)
  | [] => Except.ok none
  | o :: rest =>
    match o with
    | .exn => Except.error ()
    | .ok r =>
      if r.exitCode = 0 then
        match gwLoop none (pyLines r.stdout) with
        | some gw => Except.ok (some gw)
        | none => routeLoop rest
      else routeLoop rest
    | _ => routeLoop rest

/-- The auto-detection body of `get_network_range`: find a gateway, split
it on dots, and derive the `/24` by zeroing the last octet;
`Except.error` models the `ValueError`s ("No gateway found" / "Invalid
gateway format") and any escaped command exception. -/
def auto_range (env : Env) : Except Unit String :=
  match routeLoop env.routeOut with
  | .error _ => Except.error ()
  | .ok none => Except.error ()
  | .ok (some gw) =>
    if (splitOnChar '.' gw.toList).length = 4 then
      Except.ok (String.mk (joinChar '.' ((splitOnChar '.' gw.toList).take 3)) ++ ".0/24")
    else Except.error ()

/-- Models `DeviceDiscovery.get_network_range`: an explicit (non-"auto") range is
returned unchanged; in auto mode any failure of the detection body is
caught and the first common fallback range is used. -/
def get_network_range (env : Env) : String :=
  if env.settings.networkRange = "auto" then
    match auto_range env with
    | .ok r => r
    | .error _ => "192.168.1.0/24"
  else env.settings.networkRange

/-! ## Reachability Probe (`ping_device`, `arping_device`) -/

/-- The Windows-form fallback leg of `ping_device`: its exit status
decides; timeout or any exception yields `false`. -/
def pingWinCalc : RunOutcome → Bool
  | .ok s => s.exitCode = 0
  | _ => false

/-- The decision procedure of `ping_device` on the two invocation
outcomes: Unix form first, success on exit status 0; on nonzero exit the
Windows form decides; `TimeoutExpired` and every other exception
(including a missing `ping` binary) yield `false`. -/
def pingCalc : RunOutcome → RunOutcome → Bool
  | .ok r, w => if r.exitCode = 0 then true else pingWinCalc w
  | _, _ => false

/-- Models `DeviceDiscovery.ping_device`. -/
def ping_device (env : Env) (ip : String) : Bool :=
  pingCalc (env.pingUnix ip) (env.pingWin ip)

/-- One stdout line of a successful `arping`: `re.search` of the
colon-form lower-hex MAC pattern on `line.lower()`, upper-cased.  (No
substring precondition: `arping_device` scans every line.) -/
def lineMacArping (line : String) : Option (List Char) :=
  (searchShape lowColonShape (line.toList.map pyLowerChar)).map (List.map pyUpperChar)

/-- One stdout line of the `arp` fallback inside `arping_device`: lines
containing the target IP are scanned for the hyphen-form pattern first
(normalized to colons), then the colon-form pattern; both upper-cased. -/
def lineMacHyphenColon (ip : List Char) (line : String) : Option (List Char) :=
  if containsSub ip line.toList then
    match searchShape lowDashShape (line.toList.map pyLowerChar) with
    | some m => some ((m.map dashToColon).map pyUpperChar)
    | none =>
      (searchShape lowColonShape (line.toList.map pyLowerChar)).map (List.map pyUpperChar)
  else none

/-- The `arp` fallback loop of `arping_device` over the outcomes of
`arp -a ip` and `arp -n ip`: `FileNotFoundError` means try the next
command; a command that exits 0 and yields a MAC returns it; a command
that exits 0 with no matching line falls through to the next command;
`TimeoutExpired` and other exceptions escape to the outer handlers and
yield `(false, none)`. -/
def arpFallbackScan (ip : String) : List RunOutcome → Bool × Option String
  | [] => (false, none)
  | o :: rest =>
    match o with
    | .ok r =>
      if r.exitCode = 0 then
        match List.findSome? (lineMacHyphenColon ip.toList) (pyLines r.stdout) with
        | some m => (true, some (String.mk m))
        | none => arpFallbackScan ip rest
      else arpFallbackScan ip rest
    | .notFound => arpFallbackScan ip rest
    | .timeout => (false, none)
    | .exn => (false, none)

/-- Models `DeviceDiscovery.arping_device`: `arping` first (exit 0 means online,
with the first colon-form MAC of its output if any); on nonzero exit or
a missing `arping` binary, the `arp -a ip` / `arp -n ip` fallback;
`TimeoutExpired` and other exceptions yield `(false, none)`. -/
def arping_device (env : Env) (ip : String) : Bool × Option String :=
  match env.arpingCmd ip with
  | .timeout => (false, none)
  | .exn => (false, none)
  | .notFound => arpFallbackScan ip [env.arpACmd ip, env.arpNCmd ip]
  | .ok r =>
    if r.exitCode = 0 then
      match List.findSome? lineMacArping (pyLines r.stdout) with
      | some m => (true, some (String.mk m))
      | none => (true, none)
    else arpFallbackScan ip [env.arpACmd ip, env.arpNCmd ip]

/-! ## Hardware-Address Resolver (`get_mac_from_arp_table`) -/

def lladdrChars : List Char := ['l', 'l', 'a', 'd', 'd', 'r']

/-- The `'lladdr'`-keyed token scan of `get_mac_from_arp_table`: walk the
whitespace-split fields; at each field equal to `lladdr` whose successor,
lowered, is an exact colon-form MAC, return that successor upper-cased;
otherwise keep scanning. -/
def lladdrScan : List (List Char) → Option (List Char)
  | [] => none
  | p :: rest =>
    match rest with
    | [] => none
    | cand :: _ =>
      if p = lladdrChars ∧ exactLowColon cand then some (cand.map pyUpperChar)
      else lladdrScan rest

/-- One ARP-table stdout line, for lines containing the target IP:
hyphen-form pattern first (normalized to colons and upper-cased), then
colon-form pattern (upper-cased), then the `lladdr`-keyed token form. -/
def lineMacArpTable (ip : List Char) (line : String) : Option (List Char) :=
  if containsSub ip line.toList then
    match searchShape lowDashShape (line.toList.map pyLowerChar) with
    | some m => some ((m.map dashToColon).map pyUpperChar)
    | none =>
      match searchShape lowColonShape (line.toList.map pyLowerChar) with
      | some m => some (m.map pyUpperChar)
      | none =>
        if containsSub lladdrChars line.toList then lladdrScan (pySplitWs line.toList)
        else none
  else none

/-- Decidable form of "this command outcome contributes no MAC and lets
the loop move on": not an unexpected exception, and if it completed with
exit 0 its output has no matching line. -/
def cmdSkips (ip : List Char) : RunOutcome → Bool
  | .exn => false
  | .ok r => r.exitCode != 0 || (List.findSome? (lineMacArpTable ip) (pyLines r.stdout)).isNone
  | _ => true

/-- The command loop of `get_mac_from_arp_table`: `TimeoutExpired` and
`FileNotFoundError` are caught and mean try the next command; a command
that exits 0 is scanned line by line and the first MAC found is
returned; a command with no match falls through to the next command; any
other exception escapes to the outer handler, which yields
`(false, none)`. -/
def arpScan (ip : List Char) : List RunOutcome → Bool × Option String
  | [] => (false, none)
  | o :: rest =>
    match o with
    | .exn => (false, none)
    | .ok r =>
      if r.exitCode = 0 then
        match List.findSome? (lineMacArpTable ip) (pyLines r.stdout) with
        | some m => (true, some (String.mk m))
        | none => arpScan ip rest
      else arpScan ip rest
    | _ => arpScan ip rest

/-- Models `DeviceDiscovery.get_mac_from_arp_table`: `arp -n`, then `arp -a`,
then `ip neighbor`. -/
def get_mac_from_arp_table (env : Env) (ip : String) : Bool × Option String :=
  arpScan ip.toList [env.arpTableN, env.arpTableA, env.ipNeighborCmd]

/-! ## Subnet Sweeper (`scan_network_range` / `scan_ip`) -/

/-- Whether one configured method, run on its own, reports this host
online (`ping` and `arping` are the recognized methods; anything else is
skipped by the loop and counts as not positive). -/
def methodPositive (env : Env) (ip : String) (m : String) : Bool :=
  if m = "ping" then ping_device env ip
  else if m = "arping" then (arping_device env ip).1
  else false

def knownMethod (m : String) : Bool := m == "ping" || m == "arping"

/-- The method loop of `scan_ip`: try the configured methods in listed
order; on the first success record the method and the directly captured
MAC (for `ping`, an immediate ARP-table lookup; for `arping`, the MAC
from its reply) and stop; unrecognized methods are skipped. -/
def tryMethods (env : Env) (ip : String) : List String → Option String × Option String
  | [] => (none, none)
  | m :: rest =>
    if m = "ping" then
      if ping_device env ip then (some "ping", (get_mac_from_arp_table env ip).2)
      else tryMethods env ip rest
    else if m = "arping" then
      if (arping_device env ip).1 then (some "arping", (arping_device env ip).2)
      else tryMethods env ip rest
    else tryMethods env ip rest

/-- The methods actually probed by the loop of `scan_ip`, in order
(unrecognized methods are never probed; probing stops at the first
success). -/
def tryTrace (env : Env) (ip : String) : List String → List String
  | [] => []
  | m :: rest =>
    if m = "ping" then
      if ping_device env ip then [m] else m :: tryTrace env ip rest
    else if m = "arping" then
      if (arping_device env ip).1 then [m] else m :: tryTrace env ip rest
    else tryTrace env ip rest

/-- Models `scan_ip`: the per-host evaluation of the sweep.  `none` models a
host that is not appended to the shared result list (offline).  An
online host with no MAC yet gets the backfill: an `arping` retry when
the winning method was `ping`, then one more ARP-table lookup (the
0.1-second settle delay has no observable effect in a snapshot
environment).  The reverse-DNS lookup is best-effort and the database
logging collaborator has no effect on the returned report. -/
def scan_ip (env : Env) (ip : String) : Option Device :=
  match tryMethods env ip env.settings.discoveryMethods with
  | (none, _) => none
  | (some m, mac0) =>
    some ⟨ip,
      (match mac0 with
       | some mm => some mm
       | none =>
         match (if m = "ping" then (arping_device env ip).2 else none) with
         | some mm => some mm
         | none => (get_mac_from_arp_table env ip).2),
      env.hostnameOf ip, true, some m⟩

/-- The body of `scan_network_range` inside its `try`: resolve the range,
parse it (`Except.error` models the `ValueError` of an unparsable
range), and evaluate every host address of the range.  The ARP
pre-population phase only warms the OS cache and is outcome-free, so it
has no observable effect in the snapshot environment. -/
def scan_body (env : Env) : Except Unit (List Device) :=
  match parseNet (get_network_range env) with
  | none => Except.error ()
  | some (base, p) =>
    Except.ok (((hostsOf base p).map ipToStr).filterMap (scan_ip env))

/-- Models `DeviceDiscovery.scan_network_range`: the outer handler catches every
exception of the body and returns the empty report. -/
def scan_network_range (env : Env) : List Device :=
  match scan_body env with
  | .ok ds => ds
  | .error _ => []

/-- Models `DeviceDiscovery.discover_all_devices`. -/
def discover_all_devices (env : Env) : List Device := scan_network_range env

/-! ## Tracked-Device Status Checker (`check_device_status`,
`get_ip_from_mac`) -/

/-- The per-line scan of `get_ip_from_mac`: find the platform-form MAC in
the lowered line, normalize it, and when it equals the normalized target
extract the first IPv4-shaped substring of the original line. -/
def findIpLine (win : Bool) (macN : String) : List String → Option String
  | [] => none
  | line :: rest =>
    match (if win then
        (searchShape lowDashShape (line.toList.map pyLowerChar)).map
          (fun m => String.mk ((m.map dashToColon).map pyUpperChar))
      else
        (searchShape lowColonShape (line.toList.map pyLowerChar)).map
          (fun m => String.mk (m.map pyUpperChar))) with
    | some found =>
      if found = macN then
        match searchIpv4 line.toList with
        | some ipm => some (String.mk ipm)
        | none => findIpLine win macN rest
      else findIpLine win macN rest
    | none => findIpLine win macN rest

/-- Models `DeviceDiscovery.get_ip_from_mac`: read the whole ARP table
(`arp -a` on Windows, `arp -n` otherwise) and scan it for a line whose
MAC matches; every failure is caught and yields `none`. -/
def get_ip_from_mac (env : Env) (mac : String) : Option String :=
  match (if env.isWindows then env.arpTableA else env.arpTableN) with
  | .ok r =>
    if r.exitCode = 0 then findIpLine env.isWindows (pyUpperStr mac) (pyLines r.stdout)
    else none
  | _ => none

/-- The cached-IP method loop of `check_device_status`: with a resolved
IP, try each configured method against it and succeed on the first
positive. -/
def status_methods (env : Env) (ip : String) : List String → Bool
  | [] => false
  | m :: rest =>
    if m = "ping" then
      if ping_device env ip then true else status_methods env ip rest
    else if m = "arping" then
      if (arping_device env ip).1 then true else status_methods env ip rest
    else status_methods env ip rest

/-- The cached-IP phase of `check_device_status`: resolve an IP for the
MAC from the ARP table and confirm it with the configured methods. -/
def cached_check (env : Env) (mac : String) : Bool :=
  match get_ip_from_mac env mac with
  | some ip => status_methods env ip env.settings.discoveryMethods
  | none => false

/-- The candidate addresses of the limited fallback sweep of
`check_device_status`: the resolved range followed by the three common
private ranges, each contributing its first 50 host addresses; a range
that fails to parse is skipped (`except: continue`). -/
def fallbackCands (env : Env) : List String :=
  ([get_network_range env, "192.168.1.0/24", "192.168.0.0/24", "10.0.0.0/24"]).flatMap
    (fun r =>
      match parseNet r with
      | none => []
      | some (base, p) => (((hostsOf base p).take 50).map ipToStr))

/-- The per-candidate test of the fallback sweep: the link-layer probe
reports the host online and returns a MAC equal, case-insensitively, to
the target. -/
def fb_hit (env : Env) (macU : String) (ip : String) : Bool :=
  (arping_device env ip).1 &&
    (match (arping_device env ip).2 with
     | some f => pyUpperStr f == macU
     | none => false)

/-- The fallback sweep loop, instrumented with the list of addresses it
actually probes (every probe is the link-layer probe `arping_device`):
return `true` at the first hit, probing nothing further. -/
def fbLoop (env : Env) (macU : String) : List String → Bool × List String
  | [] => (false, [])
  | ip :: rest =>
    if fb_hit env macU ip then (true, [ip])
    else ((fbLoop env macU rest).1, ip :: (fbLoop env macU rest).2)

/-- Models `DeviceDiscovery.check_device_status`: cached-IP phase first, then
the limited fallback sweep; the final `return False` and the outer
catch-all handler make the whole check total. -/
def check_device_status (env : Env) (mac : String) : Bool :=
  if cached_check env mac then true
  else (fbLoop env (pyUpperStr mac) (fallbackCands env)).1

/-! ## Concrete environments used to instantiate the theorems -/

def baseSettings : Settings := ⟨"auto", ["ping", "arping"], 1, 2⟩

/-- A command that completes with a failing exit status. -/
def offOutcome : RunOutcome := .ok ⟨1, ""⟩

/-- A quiescent environment: nothing on the network answers, no route
tool is installed. -/
def baseEnv : Env where
  settings := baseSettings
  routeOut := [.notFound, .notFound, .notFound]
  pingUnix := fun _ => offOutcome
  pingWin := fun _ => offOutcome
  arpingCmd := fun _ => offOutcome
  arpACmd := fun _ => offOutcome
  arpNCmd := fun _ => offOutcome
  arpTableN := offOutcome
  arpTableA := offOutcome
  ipNeighborCmd := offOutcome
  hostnameOf := fun _ => none
  isWindows := false

/-- Explicit unparsable range. -/
def c1env : Env :=
  { baseEnv with settings := { baseSettings with networkRange := "not-a-cidr" } }

/-- A /30 range in which exactly one host answers ping. -/
def c2env : Env :=
  { baseEnv with
    settings := { baseSettings with networkRange := "203.0.113.0/30",
                                    discoveryMethods := ["ping"] }
    pingUnix := fun ip => if ip = "203.0.113.1" then .ok ⟨0, "1 packets transmitted"⟩ else offOutcome }

def c2dev : Device := ⟨"203.0.113.1", none, none, true, some "ping"⟩

/-- Both the ping tool and the link-layer tool would report success. -/
def c3env : Env :=
  { baseEnv with
    pingUnix := fun _ => .ok ⟨0, "64 bytes received"⟩
    arpingCmd := fun _ => .ok ⟨0, "Unicast reply from host [AA:BB:CC:DD:EE:FF]"⟩ }

/-- Unparsable explicit range and a link-layer probe that always times
out. -/
def c4env : Env :=
  { baseEnv with
    settings := { baseSettings with networkRange := "bogus-range" }
    arpingCmd := fun _ => .timeout }

/-- A /30 resolved range whose first host answers the link-layer probe
with the tracked MAC. -/
def c5env : Env :=
  { baseEnv with
    settings := { baseSettings with networkRange := "10.77.0.0/30" }
    arpingCmd := fun ip =>
      if ip = "10.77.0.1" then .ok ⟨0, "Unicast reply from 10.77.0.1 [aa:bb:cc:dd:ee:ff]  0.6ms"⟩
      else .timeout }

/-- Unix ping fails with nonzero status, Windows-form ping succeeds; the
stdout texts differ between the two environments but exit statuses
agree. -/
def c7env1 : Env :=
  { baseEnv with
    pingUnix := fun _ => .ok ⟨1, "Destination Host Unreachable"⟩
    pingWin := fun _ => .ok ⟨0, "Reply from host: bytes=32"⟩ }

def c7env2 : Env :=
  { baseEnv with
    pingUnix := fun _ => .ok ⟨1, ""⟩
    pingWin := fun _ => .ok ⟨0, "completely different text"⟩ }

/-- The first ARP-table command succeeds but its matching line holds no
MAC; the second succeeds with a hyphen-form MAC. -/
def c8env : Env :=
  { baseEnv with
    arpTableN := .ok ⟨0, "10.0.0.5 (incomplete) on eth0"⟩
    arpTableA := .ok ⟨0, "? (10.0.0.5) at aa-bb-cc-dd-ee-ff [ether]"⟩
    ipNeighborCmd := .notFound }

/-- A link-layer reply carrying a lower-case MAC. -/
def c10env : Env :=
  { baseEnv with
    arpingCmd := fun _ => .ok ⟨0, "Unicast reply from 10.0.0.9 [de:ad:be:ef:00:01]  0.7ms"⟩ }

/-! ## Definitions used only to state the verification theorems -/

/-- Class transport of plain upper-casing: lower hex becomes upper hex,
separators are unchanged. -/
def trU : MacCC → MacCC
  | .lhex => .uhex
  | k => k

/-- Class transport of `replace('-',':')` followed by upper-casing. -/
def trD : MacCC → MacCC
  | .lhex => .uhex
  | .dash => .col
  | k => k

/-- Two command outcomes agree on everything except possibly the captured
stdout text. -/
def sameStatus : RunOutcome → RunOutcome → Bool
  | .ok r, .ok s => r.exitCode == s.exitCode
  | .timeout, .timeout => true
  | .notFound, .notFound => true
  | .exn, .exn => true
  | _, _ => false

/-! ## Character-class lemmas -/

theorem all_hex_elim (l : List Char) (P : Char → Bool) (hall : l.all P = true)
    (c : Char) (hc : l.any (fun d => d == c) = true) : P c = true := by
  obtain ⟨d, hd, he⟩ := List.any_eq_true.mp hc
  have hdc : d = c := eq_of_beq he
  exact List.all_eq_true.mp hall c (hdc ▸ hd)

theorem upper_of_lhex {c : Char} (h : cmatch .lhex c = true) :
    cmatch .uhex (pyUpperChar c) = true :=
  all_hex_elim lowerHexChars (fun c => cmatch .uhex (pyUpperChar c)) (by decide) c h

theorem upper_of_uhex {c : Char} (h : cmatch .uhex c = true) :
    cmatch .uhex (pyUpperChar c) = true :=
  all_hex_elim upperHexChars (fun c => cmatch .uhex (pyUpperChar c)) (by decide) c h

theorem d2c_id_of_lhex {c : Char} (h : cmatch .lhex c = true) : dashToColon c = c :=
  eq_of_beq (all_hex_elim lowerHexChars (fun c => dashToColon c == c) (by decide) c h)

theorem d2c_id_of_uhex {c : Char} (h : cmatch .uhex c = true) : dashToColon c = c :=
  eq_of_beq (all_hex_elim upperHexChars (fun c => dashToColon c == c) (by decide) c h)

theorem ptwise_up : ∀ (k : MacCC) (c : Char), cmatch k c = true →
    cmatch (trU k) (pyUpperChar c) = true := by
  intro k c h
  cases k with
  | lhex => exact upper_of_lhex h
  | uhex => exact upper_of_uhex h
  | col =>
    have hc : c = ':' := eq_of_beq h
    subst hc; decide
  | dash =>
    have hc : c = '-' := eq_of_beq h
    subst hc; decide

theorem ptwise_updash : ∀ (k : MacCC) (c : Char), cmatch k c = true →
    cmatch (trD k) (pyUpperChar (dashToColon c)) = true := by
  intro k c h
  cases k with
  | lhex => rw [d2c_id_of_lhex h]; exact upper_of_lhex h
  | uhex => rw [d2c_id_of_uhex h]; exact upper_of_uhex h
  | col =>
    have hc : c = ':' := eq_of_beq h
    subst hc; decide
  | dash =>
    have hc : c = '-' := eq_of_beq h
    subst hc; decide

theorem ptwise_lower : ∀ (k : MacCC) (c : Char), cmatch k (pyLowerChar c) = true →
    cmatch (trU k) (pyUpperChar c) = true := by
  intro k c h
  unfold pyLowerChar at h
  cases hf : azTable.find? (fun p => p.1 == c) with
  | none =>
    rw [hf] at h
    have h2 : cmatch k c = true := h
    exact ptwise_up k c h2
  | some p =>
    rw [hf] at h
    have h2 : cmatch k p.2 = true := h
    have hp := List.mem_of_find?_eq_some hf
    have hpc := List.find?_some hf
    have hc : p.1 = c := eq_of_beq hpc
    subst hc
    fin_cases hp <;> cases k <;> revert h2 <;> decide

/-! ## Shape-matching lemmas -/

theorem forall2_of_matchShape : ∀ (s : List MacCC) (cs m : List Char),
    matchShape s cs = some m → List.Forall₂ (fun k c => cmatch k c = true) s m := by
  intro s
  induction s with
  | nil =>
    intro cs m h
    simp only [matchShape, Option.some.injEq] at h
    subst h
    exact List.Forall₂.nil
  | cons k ks ih =>
    intro cs m h
    cases cs with
    | nil => simp [matchShape] at h
    | cons c cs2 =>
      simp only [matchShape] at h
      by_cases hk : cmatch k c = true
      · rw [if_pos hk] at h
        rcases Option.map_eq_some'.mp h with ⟨m2, hm2, hm⟩
        exact hm ▸ List.Forall₂.cons hk (ih cs2 m2 hm2)
      · rw [if_neg hk] at h
        simp at h

theorem matchShape_of_forall2 : ∀ {s : List MacCC} {m : List Char},
    List.Forall₂ (fun k c => cmatch k c = true) s m → matchShape s m = some m := by
  intro s m h
  induction h with
  | nil => rfl
  | cons hkc _ ih => simp [matchShape, hkc, ih]

theorem forall2_of_searchShape (s : List MacCC) :
    ∀ (cs m : List Char), searchShape s cs = some m →
      List.Forall₂ (fun k c => cmatch k c = true) s m := by
  intro cs
  induction cs with
  | nil => intro m h; exact forall2_of_matchShape s [] m h
  | cons c cs2 ih =>
    intro m h
    cases hm : matchShape s (c :: cs2) with
    | some m0 =>
      have h2 : searchShape s (c :: cs2) = some m0 := by simp [searchShape, hm]
      rw [h2] at h
      injection h with h3
      exact h3 ▸ forall2_of_matchShape s (c :: cs2) m0 hm
    | none =>
      have h2 : searchShape s (c :: cs2) = searchShape s cs2 := by simp [searchShape, hm]
      rw [h2] at h
      exact ih m h

theorem forall2_lift (tr : MacCC → MacCC) (g f : Char → Char)
    (hp : ∀ k c, cmatch k (g c) = true → cmatch (tr k) (f c) = true) :
    ∀ (t : List Char) (s : List MacCC),
      List.Forall₂ (fun k c => cmatch k c = true) s (t.map g) →
      List.Forall₂ (fun k c => cmatch k c = true) (s.map tr) (t.map f) := by
  intro t
  induction t with
  | nil =>
    intro s h
    cases h
    exact List.Forall₂.nil
  | cons c t2 ih =>
    intro s h
    cases h with
    | cons hkc htail => exact List.Forall₂.cons (hp _ c hkc) (ih _ htail)

theorem upper_colon_search (cs m : List Char)
    (h : searchShape lowColonShape cs = some m) :
    isUpperMac (m.map pyUpperChar) = true := by
  have h2 := forall2_of_searchShape lowColonShape cs m h
  have h2m : List.Forall₂ (fun k c => cmatch k c = true) lowColonShape
      (m.map (fun c => c)) := by simpa using h2
  have h3 := forall2_lift trU (fun c => c) pyUpperChar
    (fun k c hk => ptwise_up k c hk) m lowColonShape h2m
  rw [show lowColonShape.map trU = upColonShape from rfl] at h3
  simp [isUpperMac, matchShape_of_forall2 h3]

theorem upper_dash_search (cs m : List Char)
    (h : searchShape lowDashShape cs = some m) :
    isUpperMac ((m.map dashToColon).map pyUpperChar) = true := by
  have h2 := forall2_of_searchShape lowDashShape cs m h
  have h2m : List.Forall₂ (fun k c => cmatch k c = true) lowDashShape
      (m.map (fun c => c)) := by simpa using h2
  have h3 := forall2_lift trD (fun c => c) (fun c => pyUpperChar (dashToColon c))
    (fun k c hk => ptwise_updash k c hk) m lowDashShape h2m
  rw [show lowDashShape.map trD = upColonShape from rfl] at h3
  have hmm : (m.map dashToColon).map pyUpperChar
      = m.map (fun c => pyUpperChar (dashToColon c)) := by
    simp [List.map_map, Function.comp]
  rw [hmm]
  simp [isUpperMac, matchShape_of_forall2 h3]

theorem upper_lladdr (t : List Char) (h : exactLowColon t = true) :
    isUpperMac (t.map pyUpperChar) = true := by
  have hm : matchShape lowColonShape (t.map pyLowerChar) = some (t.map pyLowerChar) := by
    simpa [exactLowColon] using h
  have h2 := forall2_of_matchShape lowColonShape (t.map pyLowerChar) (t.map pyLowerChar) hm
  have h3 := forall2_lift trU pyLowerChar pyUpperChar
    (fun k c hk => ptwise_lower k c hk) t lowColonShape h2
  rw [show lowColonShape.map trU = upColonShape from rfl] at h3
  simp [isUpperMac, matchShape_of_forall2 h3]

theorem ex_of_findSome {α β : Type} (f : α → Option β) :
    ∀ (l : List α) (b : β), List.findSome? f l = some b → ∃ a ∈ l, f a = some b := by
  intro l
  induction l with
  | nil => intro b h; simp [List.findSome?] at h
  | cons a l2 ih =>
    intro b h
    cases hfa : f a with
    | some b0 =>
      have h2 : List.findSome? f (a :: l2) = some b0 := by
        simp [List.findSome?_cons, hfa]
      rw [h2] at h
      injection h with h3
      exact ⟨a, List.mem_cons_self a l2, h3 ▸ hfa⟩
    | none =>
      have h2 : List.findSome? f (a :: l2) = List.findSome? f l2 := by
        simp [List.findSome?_cons, hfa]
      rw [h2] at h
      obtain ⟨a2, ha2, hfa2⟩ := ih b h
      exact ⟨a2, List.mem_cons_of_mem a ha2, hfa2⟩

/-! ## Every MAC the probes emit is in canonical form -/

theorem lineMacArping_upper (line : String) (m : List Char)
    (h : lineMacArping line = some m) : isUpperMac m = true := by
  unfold lineMacArping at h
  rcases Option.map_eq_some'.mp h with ⟨m0, hm0, hm⟩
  exact hm ▸ upper_colon_search _ m0 hm0

theorem lineMacHC_upper (ip : List Char) (line : String) (m : List Char)
    (h : lineMacHyphenColon ip line = some m) : isUpperMac m = true := by
  unfold lineMacHyphenColon at h
  by_cases hc : containsSub ip line.toList = true
  · rw [if_pos hc] at h
    cases hd : searchShape lowDashShape (line.toList.map pyLowerChar) with
    | some m0 =>
      rw [hd] at h
      have h2 : some ((m0.map dashToColon).map pyUpperChar) = some m := h
      injection h2 with h3
      exact h3 ▸ upper_dash_search _ m0 hd
    | none =>
      rw [hd] at h
      have h2 : (searchShape lowColonShape (line.toList.map pyLowerChar)).map
          (List.map pyUpperChar) = some m := h
      rcases Option.map_eq_some'.mp h2 with ⟨m0, hm0, hm⟩
      exact hm ▸ upper_colon_search _ m0 hm0
  · rw [if_neg hc] at h
    simp at h

theorem lladdrScan_upper : ∀ (parts : List (List Char)) (m : List Char),
    lladdrScan parts = some m → isUpperMac m = true := by
  intro parts
  induction parts with
  | nil => intro m h; simp [lladdrScan] at h
  | cons p rest ih =>
    intro m h
    cases rest with
    | nil => simp [lladdrScan] at h
    | cons cand rest2 =>
      simp only [lladdrScan] at h
      by_cases hp : p = lladdrChars ∧ exactLowColon cand = true
      · rw [if_pos hp] at h
        injection h with h2
        exact h2 ▸ upper_lladdr cand hp.2
      · rw [if_neg hp] at h
        exact ih m h

theorem lineMacArpTable_upper (ip : List Char) (line : String) (m : List Char)
    (h : lineMacArpTable ip line = some m) : isUpperMac m = true := by
  unfold lineMacArpTable at h
  by_cases hc : containsSub ip line.toList = true
  · rw [if_pos hc] at h
    cases hd : searchShape lowDashShape (line.toList.map pyLowerChar) with
    | some m0 =>
      rw [hd] at h
      have h2 : some ((m0.map dashToColon).map pyUpperChar) = some m := h
      injection h2 with h3
      exact h3 ▸ upper_dash_search _ m0 hd
    | none =>
      rw [hd] at h
      cases hcl : searchShape lowColonShape (line.toList.map pyLowerChar) with
      | some m0 =>
        rw [hcl] at h
        have h2 : some (m0.map pyUpperChar) = some m := h
        injection h2 with h3
        exact h3 ▸ upper_colon_search _ m0 hcl
      | none =>
        rw [hcl] at h
        by_cases hl : containsSub lladdrChars line.toList = true
        · rw [if_pos hl] at h
          exact lladdrScan_upper _ m h
        · rw [if_neg hl] at h
          simp at h
  · rw [if_neg hc] at h
    simp at h

theorem arpFallbackScan_upper : ∀ (ip : String) (os : List RunOutcome) (s : String),
    (arpFallbackScan ip os).2 = some s → isUpperMacS s = true := by
  intro ip os
  induction os with
  | nil => intro s h; simp [arpFallbackScan] at h
  | cons o rest ih =>
    intro s h
    cases o with
    | ok r =>
      simp only [arpFallbackScan] at h
      by_cases hr : r.exitCode = 0
      · rw [if_pos hr] at h
        cases hf : List.findSome? (lineMacHyphenColon ip.toList) (pyLines r.stdout) with
        | some m =>
          rw [hf] at h
          have h2 : some (String.mk m) = some s := h
          injection h2 with h3
          obtain ⟨line, _, hline⟩ := ex_of_findSome _ _ m hf
          exact h3 ▸ lineMacHC_upper ip.toList line m hline
        | none =>
          rw [hf] at h
          exact ih s h
      · rw [if_neg hr] at h
        exact ih s h
    | notFound =>
      simp only [arpFallbackScan] at h
      exact ih s h
    | timeout => simp [arpFallbackScan] at h
    | exn => simp [arpFallbackScan] at h

theorem arping_mac_upper (env : Env) (ip : String) (s : String)
    (h : (arping_device env ip).2 = some s) : isUpperMacS s = true := by
  unfold arping_device at h
  split at h
  · simp at h
  · simp at h
  · exact arpFallbackScan_upper ip _ s h
  · split at h
    · split at h
      · rename_i m hf
        simp only [Option.some.injEq] at h
        obtain ⟨line, _, hline⟩ := ex_of_findSome _ _ m hf
        exact h ▸ lineMacArping_upper line m hline
      · simp at h
    · exact arpFallbackScan_upper ip _ s h

theorem arpScan_upper : ∀ (ip : List Char) (os : List RunOutcome) (s : String),
    (arpScan ip os).2 = some s → isUpperMacS s = true := by
  intro ip os
  induction os with
  | nil => intro s h; simp [arpScan] at h
  | cons o rest ih =>
    intro s h
    cases o with
    | exn => simp [arpScan] at h
    | ok r =>
      simp only [arpScan] at h
      by_cases hr : r.exitCode = 0
      · rw [if_pos hr] at h
        cases hf : List.findSome? (lineMacArpTable ip) (pyLines r.stdout) with
        | some m =>
          rw [hf] at h
          have h2 : some (String.mk m) = some s := h
          injection h2 with h3
          obtain ⟨line, _, hline⟩ := ex_of_findSome _ _ m hf
          exact h3 ▸ lineMacArpTable_upper ip line m hline
        | none =>
          rw [hf] at h
          exact ih s h
      · rw [if_neg hr] at h
        exact ih s h
    | timeout =>
      simp only [arpScan] at h
      exact ih s h
    | notFound =>
      simp only [arpScan] at h
      exact ih s h

theorem get_mac_upper (env : Env) (ip : String) (s : String)
    (h : (get_mac_from_arp_table env ip).2 = some s) : isUpperMacS s = true :=
  arpScan_upper ip.toList _ s h

/-! ## Method-loop lemmas -/

theorem tryMethods_first : ∀ (env : Env) (ip : String) (pre : List String)
    (m : String) (post : List String),
    (∀ x ∈ pre, methodPositive env ip x = false) →
    methodPositive env ip m = true →
    (tryMethods env ip (pre ++ m :: post)).1 = some m ∧
    tryTrace env ip (pre ++ m :: post) = pre.filter knownMethod ++ [m] := by
  intro env ip pre
  induction pre with
  | nil =>
    intro m post _ hm
    by_cases hp : m = "ping"
    · subst hp
      have hping : ping_device env ip = true := by simpa [methodPositive] using hm
      exact ⟨by simp [tryMethods, hping], by simp [tryTrace, hping]⟩
    · by_cases ha : m = "arping"
      · subst ha
        have harp : (arping_device env ip).1 = true := by
          simpa [methodPositive] using hm
        exact ⟨by simp [tryMethods, harp], by simp [tryTrace, harp]⟩
      · simp [methodPositive, hp, ha] at hm
  | cons x pre2 ih =>
    intro m post hpre hm
    have hx := hpre x (List.mem_cons_self x pre2)
    have ihm := ih m post (fun y hy => hpre y (List.mem_cons_of_mem x hy)) hm
    by_cases hp : x = "ping"
    · subst hp
      have hping : ping_device env ip = false := by simpa [methodPositive] using hx
      constructor
      · simp [tryMethods, hping, ihm.1]
      · simp [tryTrace, hping, ihm.2, List.filter_cons, knownMethod]
    · by_cases ha : x = "arping"
      · subst ha
        have harp : (arping_device env ip).1 = false := by
          simpa [methodPositive] using hx
        constructor
        · simp [tryMethods, harp, ihm.1]
        · simp [tryTrace, harp, ihm.2, List.filter_cons, knownMethod]
      · constructor
        · simp [tryMethods, hp, ha, ihm.1]
        · have hk : knownMethod x = false := by
            simp [knownMethod, hp, ha]
          simp [tryTrace, hp, ha, ihm.2, List.filter_cons, hk]

theorem tryMethods_fst_none : ∀ (env : Env) (ip : String) (ms : List String),
    (tryMethods env ip ms).1 = none ↔ ∀ x ∈ ms, methodPositive env ip x = false := by
  intro env ip ms
  induction ms with
  | nil => simp [tryMethods]
  | cons x rest ih =>
    by_cases hp : x = "ping"
    · subst hp
      cases hping : ping_device env ip
      · simp [tryMethods, hping, ih, methodPositive]
      · simp [tryMethods, hping, methodPositive]
    · by_cases ha : x = "arping"
      · subst ha
        cases harp : (arping_device env ip).1
        · simp [tryMethods, harp, ih, methodPositive]
        · simp [tryMethods, harp, methodPositive]
      · simp [tryMethods, hp, ha, ih, methodPositive]

theorem tryMethods_fst_pos : ∀ (env : Env) (ip : String) (ms : List String) (m : String),
    (tryMethods env ip ms).1 = some m → m ∈ ms ∧ methodPositive env ip m = true := by
  intro env ip ms
  induction ms with
  | nil => intro m h; simp [tryMethods] at h
  | cons x rest ih =>
    intro m h
    by_cases hp : x = "ping"
    · subst hp
      cases hping : ping_device env ip
      · rw [show tryMethods env ip ("ping" :: rest) = tryMethods env ip rest by
            simp [tryMethods, hping]] at h
        obtain ⟨hmem, hpos⟩ := ih m h
        exact ⟨List.mem_cons_of_mem _ hmem, hpos⟩
      · rw [show tryMethods env ip ("ping" :: rest)
            = (some "ping", (get_mac_from_arp_table env ip).2) by
            simp [tryMethods, hping]] at h
        simp only [Option.some.injEq] at h
        subst h
        exact ⟨List.mem_cons_self _ _, by simp [methodPositive, hping]⟩
    · by_cases ha : x = "arping"
      · subst ha
        cases harp : (arping_device env ip).1
        · rw [show tryMethods env ip ("arping" :: rest) = tryMethods env ip rest by
              simp [tryMethods, harp]] at h
          obtain ⟨hmem, hpos⟩ := ih m h
          exact ⟨List.mem_cons_of_mem _ hmem, hpos⟩
        · rw [show tryMethods env ip ("arping" :: rest)
              = (some "arping", (arping_device env ip).2) by
              simp [tryMethods, harp]] at h
          simp only [Option.some.injEq] at h
          subst h
          exact ⟨List.mem_cons_self _ _, by simp [methodPositive, harp]⟩
      · rw [show tryMethods env ip (x :: rest) = tryMethods env ip rest by
            simp [tryMethods, hp, ha]] at h
        obtain ⟨hmem, hpos⟩ := ih m h
        exact ⟨List.mem_cons_of_mem _ hmem, hpos⟩

theorem tryMethods_snd_upper : ∀ (env : Env) (ip : String) (ms : List String) (s : String),
    (tryMethods env ip ms).2 = some s → isUpperMacS s = true := by
  intro env ip ms
  induction ms with
  | nil => intro s h; simp [tryMethods] at h
  | cons x rest ih =>
    intro s h
    by_cases hp : x = "ping"
    · subst hp
      cases hping : ping_device env ip
      · rw [show tryMethods env ip ("ping" :: rest) = tryMethods env ip rest by
            simp [tryMethods, hping]] at h
        exact ih s h
      · rw [show tryMethods env ip ("ping" :: rest)
            = (some "ping", (get_mac_from_arp_table env ip).2) by
            simp [tryMethods, hping]] at h
        exact get_mac_upper env ip s h
    · by_cases ha : x = "arping"
      · subst ha
        cases harp : (arping_device env ip).1
        · rw [show tryMethods env ip ("arping" :: rest) = tryMethods env ip rest by
              simp [tryMethods, harp]] at h
          exact ih s h
        · rw [show tryMethods env ip ("arping" :: rest)
              = (some "arping", (arping_device env ip).2) by
              simp [tryMethods, harp]] at h
          exact arping_mac_upper env ip s h
      · rw [show tryMethods env ip (x :: rest) = tryMethods env ip rest by
            simp [tryMethods, hp, ha]] at h
        exact ih s h

/-! ## Per-host and fallback-loop lemmas -/

theorem scan_ip_of_pos (env : Env) (ip : String) (m : String)
    (h : (tryMethods env ip env.settings.discoveryMethods).1 = some m) :
    ∃ d, scan_ip env ip = some d ∧ d.ip_address = ip ∧ d.is_online = true ∧
      d.discovery_method = some m := by
  unfold scan_ip
  cases h2 : tryMethods env ip env.settings.discoveryMethods with
  | mk mu mac0 =>
    rw [h2] at h
    simp only at h
    subst h
    exact ⟨_, rfl, rfl, rfl, rfl⟩

theorem scan_ip_spec (env : Env) (ip : String) (d : Device)
    (h : scan_ip env ip = some d) :
    d.ip_address = ip ∧ d.is_online = true ∧
      ∃ m, d.discovery_method = some m ∧
        (tryMethods env ip env.settings.discoveryMethods).1 = some m := by
  unfold scan_ip at h
  cases h2 : tryMethods env ip env.settings.discoveryMethods with
  | mk mu mac0 =>
    rw [h2] at h
    cases mu with
    | none => simp at h
    | some m =>
      simp only [Option.some.injEq] at h
      subst h
      exact ⟨rfl, rfl, m, rfl, rfl⟩

theorem scan_ip_mac_upper (env : Env) (ip : String) (d : Device)
    (h : scan_ip env ip = some d) (s : String) (hs : d.mac_address = some s) :
    isUpperMacS s = true := by
  unfold scan_ip at h
  cases h2 : tryMethods env ip env.settings.discoveryMethods with
  | mk mu mac0 =>
    rw [h2] at h
    cases mu with
    | none => simp at h
    | some m =>
      simp only [Option.some.injEq] at h
      subst h
      simp only at hs
      cases hm0 : mac0 with
      | some mm =>
        rw [hm0] at hs
        have hs2 : some mm = some s := hs
        injection hs2 with hs3
        subst hs3
        exact tryMethods_snd_upper env ip env.settings.discoveryMethods mm (h2 ▸ hm0 ▸ rfl)
      | none =>
        rw [hm0] at hs
        cases hb : (if m = "ping" then (arping_device env ip).2 else none) with
        | some mm =>
          rw [hb] at hs
          have hs2 : some mm = some s := hs
          injection hs2 with hs3
          subst hs3
          by_cases hmp : m = "ping"
          · rw [if_pos hmp] at hb
            exact arping_mac_upper env ip mm hb
          · rw [if_neg hmp] at hb
            simp at hb
        | none =>
          rw [hb] at hs
          exact get_mac_upper env ip s hs

theorem fbLoop_first : ∀ (env : Env) (u : String) (pre : List String)
    (ip0 : String) (post : List String),
    (∀ ip ∈ pre, fb_hit env u ip = false) → fb_hit env u ip0 = true →
    fbLoop env u (pre ++ ip0 :: post) = (true, pre ++ [ip0]) := by
  intro env u pre
  induction pre with
  | nil =>
    intro ip0 post _ h0
    simp [fbLoop, h0]
  | cons x pre2 ih =>
    intro ip0 post hpre h0
    have hx := hpre x (List.mem_cons_self x pre2)
    have ihm := ih ip0 post (fun y hy => hpre y (List.mem_cons_of_mem x hy)) h0
    simp [fbLoop, hx, ihm]

theorem fbLoop_all_miss : ∀ (env : Env) (u : String) (l : List String),
    (∀ ip ∈ l, fb_hit env u ip = false) → (fbLoop env u l).1 = false := by
  intro env u l
  induction l with
  | nil => intro _; simp [fbLoop]
  | cons x rest ih =>
    intro h
    have hx := h x (List.mem_cons_self x rest)
    simp [fbLoop, hx, ih (fun y hy => h y (List.mem_cons_of_mem x hy))]

/-! ## ARP-table command-loop lemmas (fall-through behaviour) -/

theorem arpScan_found : ∀ (ip : List Char) (pre : List RunOutcome) (o : RunOutcome)
    (post : List RunOutcome) (r : CmdResult) (m : List Char),
    (∀ x ∈ pre, cmdSkips ip x = true) →
    o = RunOutcome.ok r → r.exitCode = 0 →
    List.findSome? (lineMacArpTable ip) (pyLines r.stdout) = some m →
    arpScan ip (pre ++ o :: post) = (true, some (String.mk m)) := by
  intro ip pre
  induction pre with
  | nil =>
    intro o post r m _ ho hr hf
    subst ho
    simp [arpScan, hr, hf]
  | cons x pre2 ih =>
    intro o post r m hskip ho hr hf
    have hx := hskip x (List.mem_cons_self x pre2)
    have ihm := ih o post r m (fun y hy => hskip y (List.mem_cons_of_mem x hy)) ho hr hf
    cases x with
    | exn => simp [cmdSkips] at hx
    | timeout =>
      simp only [List.cons_append, arpScan]
      exact ihm
    | notFound =>
      simp only [List.cons_append, arpScan]
      exact ihm
    | ok rx =>
      simp only [List.cons_append, arpScan]
      by_cases hrx : rx.exitCode = 0
      · rw [if_pos hrx]
        have hn : List.findSome? (lineMacArpTable ip) (pyLines rx.stdout) = none := by
          simp only [cmdSkips] at hx
          cases hor : (rx.exitCode != 0) with
          | true => exact absurd hrx (by simpa using hor)
          | false =>
            rw [hor] at hx
            simp only [Bool.false_or] at hx
            exact Option.isNone_iff_eq_none.mp hx
        rw [hn]
        exact ihm
      · rw [if_neg hrx]
        exact ihm

theorem arpScan_none : ∀ (ip : List Char) (os : List RunOutcome),
    (∀ x ∈ os, cmdSkips ip x = true) → arpScan ip os = (false, none) := by
  intro ip os
  induction os with
  | nil => intro _; rfl
  | cons x rest ih =>
    intro h
    have hx := h x (List.mem_cons_self x rest)
    have ihm := ih (fun y hy => h y (List.mem_cons_of_mem x hy))
    cases x with
    | exn => simp [cmdSkips] at hx
    | timeout => simp only [arpScan]; exact ihm
    | notFound => simp only [arpScan]; exact ihm
    | ok rx =>
      simp only [arpScan]
      by_cases hrx : rx.exitCode = 0
      · rw [if_pos hrx]
        have hn : List.findSome? (lineMacArpTable ip) (pyLines rx.stdout) = none := by
          simp only [cmdSkips] at hx
          cases hor : (rx.exitCode != 0) with
          | true => exact absurd hrx (by simpa using hor)
          | false =>
            rw [hor] at hx
            simp only [Bool.false_or] at hx
            exact Option.isNone_iff_eq_none.mp hx
        rw [hn]
        exact ihm
      · rw [if_neg hrx]
        exact ihm

/-! ## Claim theorems -/

/-- C1 (counterexample): with the explicit, unparsable range
`"not-a-cidr"` the sweep does not surface any error to its caller: the
CIDR-parse failure occurs inside the body (`scan_body` errors) but
`scan_network_range` catches it and returns the empty report normally,
so no `InvalidRangeError` reaches the caller. -/
theorem c1_counterexample :
    c1env.settings.networkRange = "not-a-cidr" ∧
    scan_body c1env = Except.error () ∧
    scan_network_range c1env = [] ∧
    discover_all_devices c1env = [] :=
  ⟨rfl, rfl, rfl, rfl⟩

/-- C1 (amended): for every caller-supplied explicit network range that
is not "auto" and does not parse as a CIDR, the sweep's body fails at
the CIDR parse, the outer handler swallows the failure, and the caller
receives the empty report; auto-detection is never triggered for that
call (the resolver returns the explicit string unchanged, for every
route-command environment). -/
theorem c1_amended : ∀ (env : Env),
    env.settings.networkRange ≠ "auto" →
    parseNet env.settings.networkRange = none →
    get_network_range env = env.settings.networkRange ∧
    scan_body env = Except.error () ∧
    scan_network_range env = [] := by
  intro env hne hp
  have hg : get_network_range env = env.settings.networkRange := by
    unfold get_network_range
    rw [if_neg hne]
  have hb : scan_body env = Except.error () := by
    unfold scan_body
    rw [hg, hp]
  refine ⟨hg, hb, ?_⟩
  unfold scan_network_range
  rw [hb]

/-- C1 (witness): the amended claim instantiated at the environment with
explicit range `"not-a-cidr"`. -/
theorem c1_amended_witness :
    get_network_range c1env = c1env.settings.networkRange ∧
    scan_body c1env = Except.error () ∧
    scan_network_range c1env = [] :=
  c1_amended c1env (by decide) (by decide)

/-- C2: for every sweep whose body completes, every report entry is
online and was reported positive by some configured method at its
address; an address that no configured method reports positive never
appears in the report; and every probed host address with a positive
method appears — the report is exactly the positive subset of the probed
addresses. -/
theorem c2_report_positive_subset : ∀ (env : Env) (ds : List Device),
    scan_body env = Except.ok ds →
    (∀ d ∈ ds, d.is_online = true ∧
      ∃ m ∈ env.settings.discoveryMethods, methodPositive env d.ip_address m = true) ∧
    (∀ ip : String,
      (∀ m ∈ env.settings.discoveryMethods, methodPositive env ip m = false) →
      ∀ d ∈ ds, d.ip_address ≠ ip) ∧
    (∀ base p, parseNet (get_network_range env) = some (base, p) →
      ∀ ip ∈ (hostsOf base p).map ipToStr,
        (∃ m ∈ env.settings.discoveryMethods, methodPositive env ip m = true) →
        ∃ d ∈ ds, d.ip_address = ip) := by
  intro env ds hok
  cases hp : parseNet (get_network_range env) with
  | none =>
    unfold scan_body at hok
    rw [hp] at hok
    exact absurd
      (show (Except.error () : Except Unit (List Device)) = Except.ok ds from hok)
      (by simp)
  | some bp =>
    obtain ⟨base0, p0⟩ := bp
    unfold scan_body at hok
    rw [hp] at hok
    have h2 : Except.ok (((hostsOf base0 p0).map ipToStr).filterMap (scan_ip env))
        = Except.ok ds := hok
    injection h2 with h3
    subst h3
    have main : ∀ d ∈ ((hostsOf base0 p0).map ipToStr).filterMap (scan_ip env),
        d.is_online = true ∧ ∃ m ∈ env.settings.discoveryMethods,
          methodPositive env d.ip_address m = true := by
      intro d hd
      rcases List.mem_filterMap.mp hd with ⟨a, ha, hsa⟩
      obtain ⟨hip, hon, m, hdm, htm⟩ := scan_ip_spec env a d hsa
      obtain ⟨hmem, hpos⟩ := tryMethods_fst_pos env a env.settings.discoveryMethods m htm
      exact ⟨hon, m, hmem, by rw [hip]; exact hpos⟩
    refine ⟨main, ?_, ?_⟩
    · intro ip hneg d hd hipeq
      obtain ⟨_, m, hmem, hpos⟩ := main d hd
      rw [hipeq] at hpos
      rw [hneg m hmem] at hpos
      exact absurd hpos (by decide)
    · intro base p hp2 ip hip hpos
      injection hp2 with h4
      cases h4
      cases hfst : (tryMethods env ip env.settings.discoveryMethods).1 with
      | none =>
        obtain ⟨m, hm, hpm⟩ := hpos
        have hneg := (tryMethods_fst_none env ip env.settings.discoveryMethods).mp hfst m hm
        rw [hneg] at hpm
        exact absurd hpm (by decide)
      | some m =>
        obtain ⟨d, hsd, hdip, _, _⟩ := scan_ip_of_pos env ip m hfst
        exact ⟨d, List.mem_filterMap.mpr ⟨ip, hip, hsd⟩, hdip⟩

/-- C2 (witness): the /30 scenario in which exactly `203.0.113.1`
answers ping. -/
theorem c2_witness :
    (∀ d ∈ [c2dev], d.is_online = true ∧
      ∃ m ∈ c2env.settings.discoveryMethods, methodPositive c2env d.ip_address m = true) ∧
    (∀ ip : String,
      (∀ m ∈ c2env.settings.discoveryMethods, methodPositive c2env ip m = false) →
      ∀ d ∈ [c2dev], d.ip_address ≠ ip) ∧
    (∀ base p, parseNet (get_network_range c2env) = some (base, p) →
      ∀ ip ∈ (hostsOf base p).map ipToStr,
        (∃ m ∈ c2env.settings.discoveryMethods, methodPositive c2env ip m = true) →
        ∃ d ∈ [c2dev], d.ip_address = ip) :=
  c2_report_positive_subset c2env [c2dev] (by rfl)

/-- C3: when the configured methods split as `pre ++ m :: post` with
every method of `pre` negative and `m` positive, the method loop of
`scan_ip` records `m`, the probed-method trace is exactly the recognized
methods of `pre` followed by `m` (nothing after `m` is attempted in the
loop), and the host's report entry carries `discovery_method = m`. -/
theorem c3_first_method_wins : ∀ (env : Env) (ip : String) (pre : List String)
    (m : String) (post : List String),
    env.settings.discoveryMethods = pre ++ m :: post →
    (∀ x ∈ pre, methodPositive env ip x = false) →
    methodPositive env ip m = true →
    (tryMethods env ip env.settings.discoveryMethods).1 = some m ∧
    tryTrace env ip env.settings.discoveryMethods = pre.filter knownMethod ++ [m] ∧
    ∃ d, scan_ip env ip = some d ∧ d.discovery_method = some m ∧ d.is_online = true := by
  intro env ip pre m post hms hpre hm
  have h1 := tryMethods_first env ip pre m post hpre hm
  obtain ⟨d, hsd, _, hon, hdm⟩ := scan_ip_of_pos env ip m (by rw [hms]; exact h1.1)
  rw [hms]
  exact ⟨h1.1, h1.2, d, hsd, hdm, hon⟩

/-- C3 (witness): methods `[ping, arping]`, both strategies succeeding —
the recorded method is `ping`. -/
theorem c3_witness :
    (tryMethods c3env "10.1.1.1" c3env.settings.discoveryMethods).1 = some "ping" ∧
    tryTrace c3env "10.1.1.1" c3env.settings.discoveryMethods
      = List.filter knownMethod [] ++ ["ping"] ∧
    ∃ d, scan_ip c3env "10.1.1.1" = some d ∧ d.discovery_method = some "ping" ∧
      d.is_online = true :=
  c3_first_method_wins c3env "10.1.1.1" [] "ping" ["arping"] rfl
    (fun x hx => absurd hx (List.not_mem_nil x)) (by decide)

/-- C4: the sweep never propagates: a body failure is caught and yields
the empty report, a body success is returned as is; and a status check
with no cached-IP hit and every link-layer probe failing returns `false`
without throwing. -/
theorem c4_total_no_throw : ∀ (env : Env) (mac : String),
    (scan_body env = Except.error () → scan_network_range env = []) ∧
    (∀ ds, scan_body env = Except.ok ds → scan_network_range env = ds) ∧
    (get_ip_from_mac env mac = none →
      (∀ ip, (arping_device env ip).1 = false) →
      check_device_status env mac = false) := by
  intro env mac
  refine ⟨?_, ?_, ?_⟩
  · intro h
    unfold scan_network_range
    rw [h]
  · intro ds h
    unfold scan_network_range
    rw [h]
  · intro hip hfail
    have hc : cached_check env mac = false := by
      unfold cached_check
      rw [hip]
    have hfb : (fbLoop env (pyUpperStr mac) (fallbackCands env)).1 = false := by
      apply fbLoop_all_miss
      intro ip _
      simp [fb_hit, hfail ip]
    unfold check_device_status
    rw [hc]
    simpa using hfb

/-- C4 (witness): unparsable explicit range (sweep returns the empty
report) and a status check in which nothing answers (returns `false`). -/
theorem c4_witness :
    scan_network_range c4env = [] ∧
    check_device_status c4env "AA:BB:CC:DD:EE:FF" = false :=
  ⟨(c4_total_no_throw c4env "AA:BB:CC:DD:EE:FF").1 (by rfl),
   (c4_total_no_throw c4env "AA:BB:CC:DD:EE:FF").2.2 (by rfl) (fun ip => rfl)⟩

/-- C5: in the fallback path of `check_device_status` (cached-IP phase
negative), with the candidate list — the resolved range then the three
common private ranges, 50 host addresses each — splitting as
`pre ++ ip0 :: post` where every candidate of `pre` misses and `ip0`
matches the target MAC case-insensitively under the link-layer probe,
the check returns `true` and the probe trace is exactly `pre ++ [ip0]`:
nothing after the first match is probed, within or across ranges. -/
theorem c5_fallback_first_match : ∀ (env : Env) (mac : String) (pre : List String)
    (ip0 : String) (post : List String),
    cached_check env mac = false →
    fallbackCands env = pre ++ ip0 :: post →
    (∀ ip ∈ pre, fb_hit env (pyUpperStr mac) ip = false) →
    fb_hit env (pyUpperStr mac) ip0 = true →
    check_device_status env mac = true ∧
    (fbLoop env (pyUpperStr mac) (fallbackCands env)).2 = pre ++ [ip0] := by
  intro env mac pre ip0 post hc hcands hpre h0
  have hfb := fbLoop_first env (pyUpperStr mac) pre ip0 post hpre h0
  constructor
  · unfold check_device_status
    rw [hc]
    simp only [Bool.false_eq_true, if_false]
    rw [hcands, hfb]
  · rw [hcands, hfb]

set_option maxRecDepth 8000 in
/-- C5 (witness): the tracked MAC (supplied lower-case) is found at the
first candidate of the resolved /30 range; the trace stops there. -/
theorem c5_witness :
    check_device_status c5env "aa:bb:cc:dd:ee:ff" = true ∧
    (fbLoop c5env (pyUpperStr "aa:bb:cc:dd:ee:ff") (fallbackCands c5env)).2
      = [] ++ ["10.77.0.1"] :=
  c5_fallback_first_match c5env "aa:bb:cc:dd:ee:ff" [] "10.77.0.1"
    ((fallbackCands c5env).drop 1) (by rfl) (by decide)
    (fun ip h => absurd h (List.not_mem_nil ip)) (by decide)

/-- C6: the range resolver returns a caller-supplied explicit range
unchanged, and in auto mode it returns exactly the first fallback range
`192.168.1.0/24` whenever the route-command loop finds no gateway, a
route command raises, or the found gateway does not split into four
dot-separated parts.  (Totality is by construction: `get_network_range`
is a plain function — the auto-detection body's failure, `Except.error`,
is always caught.) -/
theorem c6_range_resolver : ∀ env : Env,
    (env.settings.networkRange ≠ "auto" →
      get_network_range env = env.settings.networkRange) ∧
    (env.settings.networkRange = "auto" →
      (routeLoop env.routeOut = Except.ok none ∨
       routeLoop env.routeOut = Except.error () ∨
       ∃ gw, routeLoop env.routeOut = Except.ok (some gw) ∧
         (splitOnChar '.' gw.toList).length ≠ 4) →
      get_network_range env = "192.168.1.0/24") := by
  intro env
  constructor
  · intro h
    unfold get_network_range
    rw [if_neg h]
  · intro hauto hcase
    have he : auto_range env = Except.error () := by
      unfold auto_range
      rcases hcase with h | h | ⟨gw, h, hlen⟩
      · rw [h]
      · rw [h]
      · rw [h]
        show (if (splitOnChar '.' gw.toList).length = 4 then
            Except.ok (String.mk (joinChar '.' ((splitOnChar '.' gw.toList).take 3))
              ++ ".0/24")
          else Except.error ()) = Except.error ()
        rw [if_neg hlen]
    unfold get_network_range
    rw [if_pos hauto, he]

/-- C6 (witness): auto mode with no route tool installed resolves to
`192.168.1.0/24`. -/
theorem c6_witness : get_network_range baseEnv = "192.168.1.0/24" :=
  (c6_range_resolver baseEnv).2 rfl (Or.inl (by rfl))

theorem pingWinCalc_status : ∀ (w w2 : RunOutcome), sameStatus w w2 = true →
    pingWinCalc w = pingWinCalc w2 := by
  intro w w2 h
  cases w with
  | ok s =>
    cases w2 with
    | ok s2 =>
      have hse : s.exitCode = s2.exitCode := by simpa [sameStatus] using h
      simp [pingWinCalc, hse]
    | timeout => simp [sameStatus] at h
    | notFound => simp [sameStatus] at h
    | exn => simp [sameStatus] at h
  | timeout =>
    cases w2 with
    | ok s2 => simp [sameStatus] at h
    | timeout => rfl
    | notFound => simp [sameStatus] at h
    | exn => simp [sameStatus] at h
  | notFound =>
    cases w2 with
    | ok s2 => simp [sameStatus] at h
    | timeout => simp [sameStatus] at h
    | notFound => rfl
    | exn => simp [sameStatus] at h
  | exn =>
    cases w2 with
    | ok s2 => simp [sameStatus] at h
    | timeout => simp [sameStatus] at h
    | notFound => simp [sameStatus] at h
    | exn => rfl

theorem pingCalc_status : ∀ (u w u2 w2 : RunOutcome),
    sameStatus u u2 = true → sameStatus w w2 = true →
    pingCalc u w = pingCalc u2 w2 := by
  intro u w u2 w2 h1 h2
  cases u with
  | ok r =>
    cases u2 with
    | ok r2 =>
      have hre : r.exitCode = r2.exitCode := by simpa [sameStatus] using h1
      by_cases hr : r.exitCode = 0
      · have hr2 : r2.exitCode = 0 := by rw [← hre]; exact hr
        simp [pingCalc, hr, hr2]
      · have hr2 : ¬ r2.exitCode = 0 := by rw [← hre]; exact hr
        simp [pingCalc, hr, hr2, pingWinCalc_status w w2 h2]
    | timeout => simp [sameStatus] at h1
    | notFound => simp [sameStatus] at h1
    | exn => simp [sameStatus] at h1
  | timeout =>
    cases u2 with
    | ok r2 => simp [sameStatus] at h1
    | timeout => rfl
    | notFound => simp [sameStatus] at h1
    | exn => simp [sameStatus] at h1
  | notFound =>
    cases u2 with
    | ok r2 => simp [sameStatus] at h1
    | timeout => simp [sameStatus] at h1
    | notFound => rfl
    | exn => simp [sameStatus] at h1
  | exn =>
    cases u2 with
    | ok r2 => simp [sameStatus] at h1
    | timeout => simp [sameStatus] at h1
    | notFound => simp [sameStatus] at h1
    | exn => rfl

/-- C7: the ping probe is `true` exactly when the Unix-form invocation
exits 0, or it exits nonzero and the Windows-form invocation exits 0;
timeout, a missing tool, any exception, or nonzero exit from both forms
give `false`; and the result depends only on the two exit outcomes,
never on stdout (environments agreeing on statuses agree on the
result). -/
theorem c7_ping_exit_status : ∀ (env : Env) (ip : String),
    (ping_device env ip = true ↔
      (∃ r, env.pingUnix ip = RunOutcome.ok r ∧ r.exitCode = 0) ∨
      (∃ r s, env.pingUnix ip = RunOutcome.ok r ∧ r.exitCode ≠ 0 ∧
        env.pingWin ip = RunOutcome.ok s ∧ s.exitCode = 0)) ∧
    (∀ env2 : Env,
      sameStatus (env.pingUnix ip) (env2.pingUnix ip) = true →
      sameStatus (env.pingWin ip) (env2.pingWin ip) = true →
      ping_device env ip = ping_device env2 ip) := by
  intro env ip
  constructor
  · constructor
    · intro h
      rw [show ping_device env ip = pingCalc (env.pingUnix ip) (env.pingWin ip)
          from rfl] at h
      cases hu : env.pingUnix ip with
      | ok r =>
        rw [hu] at h
        by_cases hr : r.exitCode = 0
        · exact Or.inl ⟨r, rfl, hr⟩
        · rw [show pingCalc (RunOutcome.ok r) (env.pingWin ip)
              = (if r.exitCode = 0 then true else pingWinCalc (env.pingWin ip))
              from rfl, if_neg hr] at h
          cases hw : env.pingWin ip with
          | ok s =>
            rw [hw] at h
            have hs : s.exitCode = 0 :=
              of_decide_eq_true (show decide (s.exitCode = 0) = true from h)
            exact Or.inr ⟨r, s, rfl, hr, rfl, hs⟩
          | timeout =>
            rw [hw] at h
            exact absurd (show (false : Bool) = true from h) (by decide)
          | notFound =>
            rw [hw] at h
            exact absurd (show (false : Bool) = true from h) (by decide)
          | exn =>
            rw [hw] at h
            exact absurd (show (false : Bool) = true from h) (by decide)
      | timeout =>
        rw [hu] at h
        exact absurd (show (false : Bool) = true from h) (by decide)
      | notFound =>
        rw [hu] at h
        exact absurd (show (false : Bool) = true from h) (by decide)
      | exn =>
        rw [hu] at h
        exact absurd (show (false : Bool) = true from h) (by decide)
    · intro hcase
      rcases hcase with ⟨r, hu, hr⟩ | ⟨r, s, hu, hr, hw, hs⟩
      · show pingCalc (env.pingUnix ip) (env.pingWin ip) = true
        rw [hu]
        simp [pingCalc, hr]
      · show pingCalc (env.pingUnix ip) (env.pingWin ip) = true
        rw [hu, hw]
        simp [pingCalc, pingWinCalc, hr, hs]
  · intro env2 h1 h2
    exact pingCalc_status _ _ _ _ h1 h2

/-- C7 (witness): Unix ping exits 1, Windows-form ping exits 0 — the
probe is `true`, and a second environment with the same exit statuses
but different stdout texts gives the same result. -/
theorem c7_witness :
    ping_device c7env1 "198.51.100.7" = ping_device c7env2 "198.51.100.7" ∧
    ping_device c7env1 "198.51.100.7" = true :=
  ⟨(c7_ping_exit_status c7env1 "198.51.100.7").2 c7env2 (by decide) (by decide),
   (c7_ping_exit_status c7env1 "198.51.100.7").1.mpr
     (Or.inr ⟨⟨1, "Destination Host Unreachable"⟩, ⟨0, "Reply from host: bytes=32"⟩,
       rfl, by decide, rfl, rfl⟩)⟩

/-- C8 (counterexample): the first neighbor-cache command (`arp -n`)
succeeds but its line for the target IP carries no MAC; the resolver
does not stop there — it moves on to `arp -a` and returns that command's
match, contradicting "uses the first neighbor-cache command that
succeeds". -/
theorem c8_counterexample :
    c8env.arpTableN = RunOutcome.ok ⟨0, "10.0.0.5 (incomplete) on eth0"⟩ ∧
    List.findSome? (lineMacArpTable ("10.0.0.5").toList)
      (pyLines "10.0.0.5 (incomplete) on eth0") = none ∧
    get_mac_from_arp_table c8env "10.0.0.5" = (true, some "AA:BB:CC:DD:EE:FF") :=
  ⟨rfl, by decide, by decide⟩

/-- C8 (amended): the resolver tries the neighbor-cache commands in
order and, for each command that completes, scans its lines containing
the target IP for the hyphen, colon and `lladdr` forms; it returns the
first match found across the commands in that order, moving past a
command that fails, times out, is missing, or succeeds without a
matching line; it returns none when every command is passed over without
a match. -/
theorem c8_amended : ∀ (env : Env) (ip : String),
    (∀ (pre : List RunOutcome) (o : RunOutcome) (post : List RunOutcome)
        (r : CmdResult) (m : List Char),
      [env.arpTableN, env.arpTableA, env.ipNeighborCmd] = pre ++ o :: post →
      (∀ x ∈ pre, cmdSkips ip.toList x = true) →
      o = RunOutcome.ok r → r.exitCode = 0 →
      List.findSome? (lineMacArpTable ip.toList) (pyLines r.stdout) = some m →
      get_mac_from_arp_table env ip = (true, some (String.mk m))) ∧
    ((∀ x ∈ [env.arpTableN, env.arpTableA, env.ipNeighborCmd],
        cmdSkips ip.toList x = true) →
      get_mac_from_arp_table env ip = (false, none)) := by
  intro env ip
  constructor
  · intro pre o post r m hlist hskip ho hr hf
    unfold get_mac_from_arp_table
    rw [hlist]
    exact arpScan_found ip.toList pre o post r m hskip ho hr hf
  · intro hskip
    unfold get_mac_from_arp_table
    exact arpScan_none ip.toList _ hskip

/-- C8 (witness): the amended claim instantiated at the two-command
environment of the counterexample. -/
theorem c8_amended_witness :
    get_mac_from_arp_table c8env "10.0.0.5"
      = (true, some (String.mk (("AA:BB:CC:DD:EE:FF").toList))) :=
  (c8_amended c8env "10.0.0.5").1
    [RunOutcome.ok ⟨0, "10.0.0.5 (incomplete) on eth0"⟩]
    (RunOutcome.ok ⟨0, "? (10.0.0.5) at aa-bb-cc-dd-ee-ff [ether]"⟩)
    [RunOutcome.notFound]
    ⟨0, "? (10.0.0.5) at aa-bb-cc-dd-ee-ff [ether]"⟩
    (("AA:BB:CC:DD:EE:FF").toList)
    rfl (by decide) rfl rfl (by decide)

/-- C10: every hardware address the engine produces at its interface —
the optional MAC of the link-layer probe, the MAC of the ARP-table
resolver, and the `mac_address` of every report entry — is either absent
or six two-digit upper-case-hex octets separated by colons; hyphenated
and lower-case tool output is always normalized first. -/
theorem c10_mac_canonical : ∀ (env : Env) (ip : String),
    (∀ s, (arping_device env ip).2 = some s → isUpperMacS s = true) ∧
    (∀ s, (get_mac_from_arp_table env ip).2 = some s → isUpperMacS s = true) ∧
    (∀ d, scan_ip env ip = some d → ∀ s, d.mac_address = some s →
      isUpperMacS s = true) ∧
    (∀ ds, scan_body env = Except.ok ds →
      ∀ d ∈ ds, ∀ s, d.mac_address = some s → isUpperMacS s = true) := by
  intro env ip
  refine ⟨fun s h => arping_mac_upper env ip s h,
          fun s h => get_mac_upper env ip s h,
          fun d hd s hs => scan_ip_mac_upper env ip d hd s hs, ?_⟩
  intro ds hok d hd s hs
  cases hp : parseNet (get_network_range env) with
  | none =>
    unfold scan_body at hok
    rw [hp] at hok
    exact absurd
      (show (Except.error () : Except Unit (List Device)) = Except.ok ds from hok)
      (by simp)
  | some bp =>
    obtain ⟨base0, p0⟩ := bp
    unfold scan_body at hok
    rw [hp] at hok
    have h2 : Except.ok (((hostsOf base0 p0).map ipToStr).filterMap (scan_ip env))
        = Except.ok ds := hok
    injection h2 with h3
    subst h3
    rcases List.mem_filterMap.mp hd with ⟨a, _, hsa⟩
    exact scan_ip_mac_upper env a d hsa s hs

/-- C10 (witness): a lower-case link-layer reply is delivered
upper-cased and colon-separated. -/
theorem c10_witness : isUpperMacS "DE:AD:BE:EF:00:01" = true :=
  (c10_mac_canonical c10env "10.0.0.9").1 "DE:AD:BE:EF:00:01" (by decide)
